import Mathlib

/-!
Shallow embedding of the incremental analysis orchestrator of CodeAskCLI
(src/codeaskcli/analyzer.py and src/codeaskcli/file_utils.py).

Modelling conventions:
* Files are identified by their project-relative path (the Python code
  converts absolute paths to relative ones with os.path.relpath; we work
  with the relative paths directly).
* The file system is a function `String → Option String`: `some c` means the
  file is readable with content `c`, `none` means every read attempt fails.
* The md5 digest is an abstract function `String → String` on contents.
* The backend (`api_client.chat_completion` followed by `clean_response`)
  is an oracle indexed by the user-message string and the attempt number
  (`0`, `1`, `2`, …); it returns `.ok cleanedResponse` or `.error msg`
  (an exception whose `str` is `msg`).
* Sleeps (`time.sleep(wait_time)`) are recorded as a list of slept
  durations in seconds, in order.
-/

namespace CodeAskCLI

/-- One file's analysis outcome, as built by `analyze_single_file`
(`analyzer.py`): keys `filename`, `content`, `fileHash`, `status`. -/
structure FileRecord where
  filename : String
  content : String
  fileHash : String
  status : String
deriving DecidableEq, Repr

/-- The shape `load_previous_analysis` returns when the snapshot file exists
and contains a `singleFileResults` key: the list of previous per-file
records plus the config hash stored under
`globalAnalysis.results.cli_analysis.configHash` (absent keys give `none`). -/
structure PrevSnapshot where
  singleFileResults : List FileRecord
  configHash : Option String
deriving DecidableEq, Repr

/-- Embeds `file_utils.read_file`: the Python function catches every
exception and returns the empty string, so an unreadable file (`fs p =
none`) yields `""` rather than an error. -/
def read_file (fs : String → Option String) (p : String) : String :=
  match fs p with
  | some c => c
  | none => ""

/-- Embeds `file_utils.get_file_hash`: md5 of the file's bytes; the
Python function catches every exception and returns the empty string,
so an unreadable file yields `""`. -/
def get_file_hash (fs : String → Option String) (md5 : String → String) (p : String) : String :=
  match fs p with
  | some c => md5 c
  | none => ""

/-- The user message built in `analyze_single_file`:
`f"File: {relative_path}\n\nCode:\n{content}"`. -/
def userMessage (relPath content : String) : String :=
  "File: " ++ relPath ++ "\n\nCode:\n" ++ content

/-- The retry loop of `analyze_single_file` (`while retry_count < max_retries`
with `max_retries = 3`).  `fuel` is `max_retries - retry_count`, so the loop
is entered with `fuel = 3`, `retryCount = 0`.  Each iteration calls the
backend oracle at the current `retryCount`; on success it returns a
`success` record, on failure it either sleeps `2 ^ (retryCount+1)` seconds
and retries, or (when retries are exhausted) returns an `error` record whose
content embeds the retry count.  The `fuel = 0` case is the unreachable
fall-through after the loop (`last_error` would be printed there). -/
def analyzeGo (api : Nat → Except String String) (relPath fileHash : String) :
    Nat → Nat → FileRecord × List Nat
  | 0, _ => (⟨relPath, "分析失败: None", fileHash, "error"⟩, [])
  | fuel + 1, retryCount =>
    match api retryCount with
    | .ok result => (⟨relPath, result, fileHash, "success"⟩, [])
    | .error e =>
      if retryCount + 1 < 3 then
        let waitTime := 2 ^ (retryCount + 1)
        let rest := analyzeGo api relPath fileHash fuel (retryCount + 1)
        (rest.1, waitTime :: rest.2)
      else
        (⟨relPath, "分析失败: " ++ e ++ " (已重试" ++ toString (retryCount + 1) ++ "次)",
          fileHash, "error"⟩, [])

/-- Embeds `CodeAnalyzer.analyze_single_file`: reads the file, hashes it,
and runs the bounded retry loop against the backend oracle.  Returns the
terminal `FileRecord` together with the list of backoff sleeps.  `api`
takes the relative path and the built user message (the system prompt is
fixed and folded into the oracle) plus the attempt index. -/
def analyze_single_file (api : String → String → Nat → Except String String)
    (fs : String → Option String) (md5 : String → String) (relPath : String) :
    FileRecord × List Nat :=
  let content := read_file fs relPath
  let fileHash := get_file_hash fs md5 relPath
  analyzeGo (api relPath (userMessage relPath content)) relPath fileHash 3 0

/-- One entry of the `as_completed` collection loop in `analyze_project`:
`future.result()` either returns `analyze_single_file`'s record, or raises
(an error outside the runner's own capture contract, modelled by
`crash p = some e`), in which case an `error` record
`{"content": f"处理失败: {e}", …}` is appended instead. -/
def scheduledResult (api : String → String → Nat → Except String String)
    (fs : String → Option String) (md5 : String → String)
    (crash : String → Option String) (p : String) : FileRecord :=
  match crash p with
  | some e => ⟨p, "处理失败: " ++ e, get_file_hash fs md5 p, "error"⟩
  | none => (analyze_single_file api fs md5 p).1

/-- The concurrent scheduler of `analyze_project` (ThreadPoolExecutor +
`as_completed`): results are appended in completion order, modelled by
running over `order`, an arbitrary permutation of the scheduled tasks
(the permutation is how a concurrency level ≥ 1 manifests in the pure
model). -/
def runAll (api : String → String → Nat → Except String String)
    (fs : String → Option String) (md5 : String → String)
    (crash : String → Option String) (order : List String) : List FileRecord :=
  order.map (scheduledResult api fs md5 crash)

/-- The per-file block appended to `files_content` in `generate_summary`:
`f"## 文件: {filename}\n\n{content}\n\n"`. -/
def fileChunk (r : FileRecord) : String :=
  "## 文件: " ++ r.filename ++ "\n\n" ++ r.content ++ "\n\n"

/-- The `files_content` accumulation loop of `generate_summary`: a record
contributes its chunk exactly when `status == "success" and content`
(Python truthiness: an empty `content` string is skipped). -/
def collectFilesContent : List FileRecord → List String
  | [] => []
  | r :: rest =>
    if r.status = "success" ∧ r.content ≠ ""
    then fileChunk r :: collectFilesContent rest
    else collectFilesContent rest

/-- `all_content = "\n".join(files_content)` in `generate_summary`. -/
def aggregationInput (results : List FileRecord) : String :=
  String.intercalate "\n" (collectFilesContent results)

/-- The user message of the aggregation request in `generate_summary`. -/
def summaryUserMessage (allContent : String) : String :=
  "以下是对项目中各个文件的分析结果，请根据这些分析生成整个项目的总结分析报告：\n\n" ++ allContent

/-- The retry loop of `generate_summary`, same shape as `analyzeGo`
(`max_retries = 3`, backoff `2 ^ retry_count`); on exhaustion it returns the
error string `f"生成总结失败: {e} (已重试{retry_count}次)"` instead of
raising. -/
def summaryGo (api : Nat → Except String String) : Nat → Nat → String × List Nat
  | 0, _ => ("生成总结失败: None", [])
  | fuel + 1, retryCount =>
    match api retryCount with
    | .ok result => (result, [])
    | .error e =>
      if retryCount + 1 < 3 then
        let rest := summaryGo api fuel (retryCount + 1)
        (rest.1, 2 ^ (retryCount + 1) :: rest.2)
      else
        ("生成总结失败: " ++ e ++ " (已重试" ++ toString (retryCount + 1) ++ "次)", [])

/-- Embeds `CodeAnalyzer.generate_summary`: concatenates the successful
records' contents and runs the bounded retry loop on the aggregation
request.  Returns the summary string (a backend answer or the terminal
error string — the function never raises) and the backoff sleeps. -/
def generate_summary (api : String → Nat → Except String String)
    (results : List FileRecord) : String × List Nat :=
  let allContent := aggregationInput results
  summaryGo (api (summaryUserMessage allContent)) 3 0

/-- Python truthiness of an optional string (`if config_hash and …`):
`None` and the empty string are falsy. -/
def optTruthy : Option String → Bool
  | none => false
  | some s => decide (s ≠ "")

/-- The `previous_file_hashes` dict built in `analyze_project`: one
`(filename, fileHash)` pair per previous record whose `filename` and
`fileHash` are both truthy (non-empty), in list order; dict lookups take
the last binding for a key. -/
def previousHashPairs (results : List FileRecord) : List (String × String) :=
  (results.filter (fun r => decide (r.filename ≠ "") && decide (r.fileHash ≠ ""))).map
    (fun r => (r.filename, r.fileHash))

/-- Lookup in a dict modelled as an assignment list: repeated assignments to
the same key overwrite, so the last pair for `k` wins. -/
def dictLookup (l : List (String × String)) (k : String) : Option String :=
  match l.reverse.find? (fun kv => kv.1 == k) with
  | some kv => some kv.2
  | none => none

/-- The `removed_files` list built in `analyze_project`: filenames of
previous records (with truthy `filename` and `fileHash`) that are not in
the currently discovered relative-path set. -/
def removedFilesOf (results : List FileRecord) (allRel : List String) : List String :=
  ((results.filter (fun r =>
      decide (r.filename ≠ "") && decide (r.fileHash ≠ "") &&
      decide (r.filename ∉ allRel))).map (fun r => r.filename))

/-- The reuse test of the incremental branch in `analyze_project`: a
discovered path is reused when it is in `previous_file_hashes` and the
stored hash equals the current `get_file_hash`; the Python code schedules on
the negation (`not in … or … != current_hash`). -/
def reuseCond (prevHashes : List (String × String)) (fs : String → Option String)
    (md5 : String → String) (p : String) : Bool :=
  dictLookup prevHashes p == some (get_file_hash fs md5 p)

/-- The `files_to_analyze` list of the incremental branch: discovered files
in discovery order that fail the reuse test. -/
def diffSchedule (prevHashes : List (String × String)) (fs : String → Option String)
    (md5 : String → String) (discovered : List String) : List String :=
  discovered.filter (fun p => !(reuseCond prevHashes fs md5 p))

/-- The `existing_results` list of the incremental branch: for each reused
discovered path, the first previous record with that filename (the inner
`for … break` loop); a path with no matching record contributes nothing. -/
def diffReuse (prevHashes : List (String × String)) (fs : String → Option String)
    (md5 : String → String) (prevResults : List FileRecord)
    (discovered : List String) : List FileRecord :=
  discovered.filterMap (fun p =>
    if reuseCond prevHashes fs md5 p
    then prevResults.find? (fun r => r.filename == p)
    else none)

/-- All inputs of one `analyze_project` run that the claims depend on. -/
structure RunInput where
  /-- Relative paths from `find_matching_files` (deduplicated by that
  collaborator via `list(set(…))`). -/
  discovered : List String
  /-- File system: readable content per path, `none` for an unreadable file. -/
  fs : String → Option String
  /-- Content digest used by `get_file_hash`. -/
  md5 : String → String
  /-- The `incremental` argument. -/
  incremental : Bool
  /-- Whether `output_file` is set (non-`None`). -/
  hasOutput : Bool
  /-- What `load_previous_analysis` would return if called: `none` when the
  snapshot file is absent, unparsable, or lacks `singleFileResults`. -/
  disk : Option PrevSnapshot
  /-- The `config_hash` argument. -/
  configHash : Option String
  /-- Per-file backend oracle: path, user message, attempt index. -/
  api : String → String → Nat → Except String String
  /-- Aggregation backend oracle: user message, attempt index. -/
  apiSummary : String → Nat → Except String String
  /-- Unexpected exception raised by `future.result()` for a path, outside
  the runner's own capture contract. -/
  crash : String → Option String
  /-- Completion order of `as_completed` over the scheduled tasks. -/
  reorder : List String → List String

/-- The observables of one `analyze_project` run. -/
structure RunOutcome where
  /-- The previous analysis actually loaded (`{}` modelled as `none`). -/
  loadedPrevious : Option PrevSnapshot
  /-- `removed_files`. -/
  removedFiles : List String
  /-- Paths whose per-file artifact `remove_analysis_file` deleted. -/
  deletedArtifacts : List String
  /-- `files_to_analyze` (as relative paths). -/
  filesToAnalyze : List String
  /-- `existing_results`. -/
  existingResults : List FileRecord
  /-- `config_changed`. -/
  configChanged : Bool
  /-- `new_single_file_results` in completion order. -/
  newResults : List FileRecord
  /-- `single_file_results = filtered_existing_results + new_single_file_results`. -/
  mergedResults : List FileRecord
  /-- The `summary` string from `generate_summary`. -/
  summary : String
  /-- What `save_analysis_results` receives (records and summary), or
  `none` when no `output_file` is configured. -/
  saved : Option (List FileRecord × String)
deriving Repr

/-- `previous_analysis`: `load_previous_analysis` is called only when
`incremental and output_file` (`analyzer.py` line 285); otherwise the run
starts from the empty dict, modelled as `none`. -/
def previousAnalysisOf (inp : RunInput) : Option PrevSnapshot :=
  if inp.incremental && inp.hasOutput then inp.disk else none

/-- `previous_single_file_results` (empty when nothing was loaded). -/
def previousResultsOf (inp : RunInput) : List FileRecord :=
  match previousAnalysisOf inp with
  | some p => p.singleFileResults
  | none => []

/-- `previous_file_hashes` for this run. -/
def prevHashesOf (inp : RunInput) : List (String × String) :=
  previousHashPairs (previousResultsOf inp)

/-- `removed_files` for this run. -/
def removedFilesOfRun (inp : RunInput) : List String :=
  removedFilesOf (previousResultsOf inp) inp.discovered

/-- `previous_config_hash`: read from the loaded analysis only. -/
def previousConfigHashOf (inp : RunInput) : Option String :=
  match previousAnalysisOf inp with
  | some p => p.configHash
  | none => none

/-- `config_changed`: both config hashes truthy and different
(`analyzer.py` line 316). -/
def configChangedOf (inp : RunInput) : Bool :=
  optTruthy inp.configHash && optTruthy (previousConfigHashOf inp) &&
    decide (inp.configHash ≠ previousConfigHashOf inp)

/-- The value of the `incremental` variable after the config check
(`incremental = False` when the config changed). -/
def incrementalAfterConfigOf (inp : RunInput) : Bool :=
  inp.incremental && !(configChangedOf inp)

/-- The guard of the incremental branch:
`if incremental and previous_file_hashes and not config_changed`
(`analyzer.py` line 329), with `incremental` already updated by the
config check. -/
def incBranchOf (inp : RunInput) : Bool :=
  incrementalAfterConfigOf inp && !(prevHashesOf inp).isEmpty &&
    !(configChangedOf inp)

/-- `files_to_analyze`: the schedule partition in the incremental branch,
every discovered file otherwise. -/
def filesToAnalyzeOf (inp : RunInput) : List String :=
  if incBranchOf inp then
    diffSchedule (prevHashesOf inp) inp.fs inp.md5 inp.discovered
  else inp.discovered

/-- `existing_results`: the reuse partition in the incremental branch,
empty otherwise. -/
def existingResultsOf (inp : RunInput) : List FileRecord :=
  if incBranchOf inp then
    diffReuse (prevHashesOf inp) inp.fs inp.md5 (previousResultsOf inp) inp.discovered
  else []

/-- The artifact deletions performed by `remove_analysis_file`: both the
incremental branch and the full branch delete every `removed_files` entry
when an output file is configured (`analyzer.py` lines 345 and 362). -/
def deletedArtifactsOf (inp : RunInput) : List String :=
  if !(removedFilesOfRun inp).isEmpty && inp.hasOutput then
    removedFilesOfRun inp
  else []

/-- `new_single_file_results`: the scheduler's output in completion order. -/
def newResultsOf (inp : RunInput) : List FileRecord :=
  runAll inp.api inp.fs inp.md5 inp.crash (inp.reorder (filesToAnalyzeOf inp))

/-- `filtered_existing_results`: the retained reuse records minus removed
filenames, kept only when `incremental and not config_changed`
(`analyzer.py` line 432). -/
def filteredExistingOf (inp : RunInput) : List FileRecord :=
  if incrementalAfterConfigOf inp && !(configChangedOf inp) then
    (existingResultsOf inp).filter (fun r => decide (r.filename ∉ removedFilesOfRun inp))
  else []

/-- `single_file_results = filtered_existing_results + new_single_file_results`. -/
def mergedResultsOf (inp : RunInput) : List FileRecord :=
  filteredExistingOf inp ++ newResultsOf inp

/-- The `summary` string produced by the aggregation stage of the run. -/
def summaryOf (inp : RunInput) : String :=
  (generate_summary inp.apiSummary (mergedResultsOf inp)).1

/-- Embeds `CodeAnalyzer.analyze_project` (discovery is an input; TUI and
prints are observational only and omitted).  The run: load the previous
analysis only when `incremental and output_file`; extract hashes, removed
files and the previous config hash; detect a config change (which resets
`incremental`); partition into files to analyze and reuse records; delete
the artifacts of removed files when an output file is configured; run the
scheduler; filter retained records and merge; aggregate; save when an
output file is configured. -/
def analyze_project (inp : RunInput) : RunOutcome :=
  { loadedPrevious := previousAnalysisOf inp
    removedFiles := removedFilesOfRun inp
    deletedArtifacts := deletedArtifactsOf inp
    filesToAnalyze := filesToAnalyzeOf inp
    existingResults := existingResultsOf inp
    configChanged := configChangedOf inp
    newResults := newResultsOf inp
    mergedResults := mergedResultsOf inp
    summary := summaryOf inp
    saved := if inp.hasOutput then some (mergedResultsOf inp, summaryOf inp) else none }

/-- A primitive file-system effect performed by `save_analysis_results`:
`open(path, 'w')` truncates the file in place, and a subsequent `f.write`
appends data to it.  There is no temporary file and no rename in the
Python code. -/
inductive FsOp where
  | openTrunc (path : String)
  | writeData (path : String) (data : String)
deriving DecidableEq, Repr

/-- Apply one file-system op to a state mapping each path to its current
content (the empty string standing for an absent or empty file). -/
def applyOp (st : String → String) : FsOp → (String → String)
  | .openTrunc p => fun q => if q = p then "" else st q
  | .writeData p d => fun q => if q = p then st q ++ d else st q

/-- All states an external reader can observe while a sequence of ops runs:
the initial state, every intermediate state, and the final state. -/
def runOps (st : String → String) : List FsOp → List (String → String)
  | [] => [st]
  | op :: rest => st :: runOps (applyOp st op) rest

/-- The file-system ops of `file_utils.save_analysis_results`, in program
order: truncate-then-write the snapshot JSON at `outputPath`, then the
summary at `summaryPath` (`SUMMARY.md` next to the snapshot), then one
artifact per record at `artifactPath filename` (`{filename}.md` under the
output directory), writing the record's content.  Each `open(…, 'w')` is a
truncation separate from the write that follows it. -/
def save_analysis_results_ops (outputPath summaryPath : String)
    (artifactPath : String → String) (snapshotJson summaryText : String)
    (fileResults : List FileRecord) : List FsOp :=
  [FsOp.openTrunc outputPath, FsOp.writeData outputPath snapshotJson,
   FsOp.openTrunc summaryPath, FsOp.writeData summaryPath summaryText] ++
  fileResults.foldr
    (fun r acc =>
      FsOp.openTrunc (artifactPath r.filename) ::
      FsOp.writeData (artifactPath r.filename) r.content :: acc) []

/-- The Remove set as claim C1's sources word it: the paths recorded in the
previous on-disk snapshot but absent from the currently discovered set.
This follows the spec's words, to be compared with what the code computes
(`removedFilesOfRun`). -/
def removeSetSpec (disk : Option PrevSnapshot) (discovered : List String) : List String :=
  match disk with
  | none => []
  | some p =>
    (p.singleFileResults.map (fun r => r.filename)).filter
      (fun f => decide (f ∉ discovered))

/-- The aggregation input as claim C7 words it: the chunk of every
Success-status record, including those with empty content.  This follows
the claim's words, to be compared with `aggregationInput` from the code. -/
def aggregationInputAllSuccess (results : List FileRecord) : String :=
  String.intercalate "\n"
    ((results.filter (fun r => decide (r.status = "success"))).map fileChunk)

/-- A concrete two-file file system used by witnesses: `a.py` and `b.py`
readable, everything else unreadable. -/
def fsA : String → Option String := fun p =>
  if p = "a.py" then some "alpha" else if p = "b.py" then some "beta" else none

/-- A concrete digest function for witnesses. -/
def md5A : String → String := fun c => "md5-" ++ c

/-- A concrete baseline run: incremental with an output file, a previous
snapshot holding a matching record for `a.py` and a record for the
no-longer-existing `gone.py`, and an unchanged config hash. -/
def baseInput : RunInput :=
  { discovered := ["a.py", "b.py"]
    fs := fsA
    md5 := md5A
    incremental := true
    hasOutput := true
    disk := some
      { singleFileResults :=
          [⟨"a.py", "old analysis", "md5-alpha", "success"⟩,
           ⟨"gone.py", "old gone", "H1", "success"⟩]
        configHash := some "cfg1" }
    configHash := some "cfg1"
    api := fun _ _ _ => .ok "fresh analysis"
    apiSummary := fun _ _ => .ok "summary"
    crash := fun _ => none
    reorder := id }

/-- The baseline run with a caller-requested full (non-incremental) pass. -/
def fullRunInput : RunInput := { baseInput with incremental := false }

/-- The baseline run with a changed configuration hash. -/
def configChangeInput : RunInput := { baseInput with configHash := some "cfg2" }

/-- The baseline run whose aggregation backend fails every attempt. -/
def aggFailInput : RunInput :=
  { baseInput with apiSummary := fun _ n => .error ("aggboom" ++ toString n) }

/-- The baseline run with incremental requested but no output file. -/
def noOutputInput : RunInput := { baseInput with hasOutput := false }

/-- Initial file-system state for the persistence trace: the snapshot file
holds the previous snapshot, all other files are empty/absent. -/
def c9Init : String → String := fun q => if q = ".codeaskdata" then "OLDSNAP" else ""

/-- The op sequence of a concrete save over that state. -/
def c9Ops : List FsOp :=
  save_analysis_results_ops ".codeaskdata" "SUMMARY.md" (fun f => f ++ ".md")
    "NEWSNAP" "the summary" [⟨"a.py", "fresh analysis", "md5-alpha", "success"⟩]

/-! Helper lemmas shared by the claim theorems. -/

theorem analyzeGo_filename (api : Nat → Except String String) (relPath fileHash : String) :
    ∀ fuel retryCount, (analyzeGo api relPath fileHash fuel retryCount).1.filename = relPath := by
  intro fuel
  induction fuel with
  | zero => intro rc; rfl
  | succ m ih =>
    intro rc
    simp only [analyzeGo]
    cases api rc with
    | ok r => rfl
    | error e =>
      by_cases h : rc + 1 < 3
      · simp only [if_pos h]
        exact ih (rc + 1)
      · simp only [if_neg h]

theorem analyzeGo_congr (relPath fileHash : String) :
    ∀ (fuel rc : Nat) (api api' : Nat → Except String String),
      (∀ n, rc ≤ n → n < rc + fuel → api n = api' n) →
      analyzeGo api relPath fileHash fuel rc = analyzeGo api' relPath fileHash fuel rc := by
  intro fuel
  induction fuel with
  | zero => intro rc api api' _; rfl
  | succ m ih =>
    intro rc api api' h
    have hrc : api rc = api' rc := h rc (Nat.le_refl rc) (by omega)
    simp only [analyzeGo, hrc]
    cases api' rc with
    | ok r => rfl
    | error e =>
      by_cases hlt : rc + 1 < 3
      · simp only [if_pos hlt]
        rw [ih (rc + 1) api api' (fun n h1 h2 => h n (by omega) (by omega))]
      · simp only [if_neg hlt]

theorem scheduledResult_filename (api : String → String → Nat → Except String String)
    (fs : String → Option String) (md5 : String → String)
    (crash : String → Option String) (p : String) :
    (scheduledResult api fs md5 crash p).filename = p := by
  unfold scheduledResult
  cases crash p with
  | some e => rfl
  | none =>
    unfold analyze_single_file
    exact analyzeGo_filename _ _ _ 3 0

theorem runAll_map_filename (api : String → String → Nat → Except String String)
    (fs : String → Option String) (md5 : String → String)
    (crash : String → Option String) (order : List String) :
    (runAll api fs md5 crash order).map (fun r => r.filename) = order := by
  unfold runAll
  rw [List.map_map]
  have hc : ((fun r : FileRecord => r.filename) ∘ scheduledResult api fs md5 crash) = id := by
    funext p
    simp [Function.comp, scheduledResult_filename]
  rw [hc, List.map_id]

theorem mem_runAll_filename {api : String → String → Nat → Except String String}
    {fs : String → Option String} {md5 : String → String}
    {crash : String → Option String} {order : List String} {r : FileRecord}
    (h : r ∈ runAll api fs md5 crash order) : r.filename ∈ order := by
  rcases List.mem_map.mp h with ⟨p, hp, rfl⟩
  rw [scheduledResult_filename]
  exact hp

theorem summaryGo_allFail (f : Nat → Except String String) (e : Nat → String)
    (h : ∀ n, f n = .error (e n)) :
    summaryGo f 3 0 =
      ("生成总结失败: " ++ e 2 ++ " (已重试" ++ toString 3 ++ "次)", [2, 4]) := by
  simp [summaryGo, h]

theorem summaryGo_ok0 (f : Nat → Except String String) (r0 : String)
    (h : f 0 = .ok r0) : summaryGo f 3 0 = (r0, []) := by
  simp [summaryGo, h]

theorem collectFilesContent_eq (results : List FileRecord) :
    collectFilesContent results =
      (results.filter (fun r =>
        decide (r.status = "success") && decide (r.content ≠ ""))).map fileChunk := by
  induction results with
  | nil => rfl
  | cons r rest ih =>
    by_cases h1 : r.status = "success" <;> by_cases h2 : r.content = "" <;>
      simp [collectFilesContent, List.filter_cons, h1, h2, ih]

theorem mem_removedFilesOf {results : List FileRecord} {allRel : List String} {p : String}
    (h : p ∈ removedFilesOf results allRel) : p ∉ allRel := by
  unfold removedFilesOf at h
  rcases List.mem_map.mp h with ⟨r, hr, rfl⟩
  have h2 := (List.mem_filter.mp hr).2
  simp only [Bool.and_eq_true, decide_eq_true_eq] at h2
  exact h2.2

theorem diffReuse_names_sublist (prevHashes : List (String × String))
    (fs : String → Option String) (md5 : String → String)
    (prevResults : List FileRecord) :
    ∀ discovered : List String,
      List.Sublist
        ((diffReuse prevHashes fs md5 prevResults discovered).map (fun r => r.filename))
        (discovered.filter (reuseCond prevHashes fs md5)) := by
  intro discovered
  induction discovered with
  | nil => simp [diffReuse]
  | cons p ps ih =>
    simp only [diffReuse] at ih ⊢
    rw [List.filterMap_cons, List.filter_cons]
    cases hc : reuseCond prevHashes fs md5 p with
    | false =>
      simp only [hc, Bool.false_eq_true, if_false]
      exact ih
    | true =>
      simp only [hc, if_true]
      cases hf : prevResults.find? (fun r => r.filename == p) with
      | none => exact ih.cons p
      | some r =>
        have hr : r.filename = p := by
          have := List.find?_some hf
          simpa using this
        simpa [hr] using ih.cons₂ p

theorem filesToAnalyzeOf_sublist (inp : RunInput) :
    List.Sublist (filesToAnalyzeOf inp) inp.discovered := by
  unfold filesToAnalyzeOf
  split
  · exact List.filter_sublist _
  · exact List.Sublist.refl _

/-! Claim theorems. -/

/-- C4: the task runner attempts the backend at most 3 times (its result
depends only on the oracle's first three attempts), sleeps 2 then 4 seconds
between consecutive attempts, returns a Success record when attempts 1 and
2 fail and attempt 3 succeeds, and returns an Error record whose content
mentions 3 retries (`已重试3次`) when all 3 attempts fail. -/
theorem c4_retry_policy :
    (∀ (api api' : Nat → Except String String) (relPath fileHash : String),
        (∀ n, n < 3 → api n = api' n) →
        analyzeGo api relPath fileHash 3 0 = analyzeGo api' relPath fileHash 3 0) ∧
    (∀ (e1 e2 r relPath fileHash : String),
        analyzeGo
            (fun n => if n = 0 then Except.error e1
                      else if n = 1 then Except.error e2 else Except.ok r)
            relPath fileHash 3 0 =
          (⟨relPath, r, fileHash, "success"⟩, [2, 4])) ∧
    (∀ (e : Nat → String) (relPath fileHash : String),
        analyzeGo (fun n => Except.error (e n)) relPath fileHash 3 0 =
          (⟨relPath, "分析失败: " ++ e 2 ++ " (已重试" ++ toString 3 ++ "次)",
            fileHash, "error"⟩, [2, 4])) := by
  refine ⟨?_, ?_, ?_⟩
  · intro api api' relPath fileHash h
    exact analyzeGo_congr relPath fileHash 3 0 api api'
      (fun n h1 h2 => h n (by omega))
  · intro e1 e2 r relPath fileHash
    rfl
  · intro e relPath fileHash
    rfl

/-- Witness for C4: instantiates the at-most-3-attempts part with two
oracles that agree on attempts 0, 1, 2 and differ from attempt 3 on. -/
theorem c4_retry_policy_witness :
    analyzeGo (fun _ => Except.ok "r") "p" "h" 3 0 =
      analyzeGo (fun n => if n < 3 then Except.ok "r" else Except.error "late") "p" "h" 3 0 :=
  c4_retry_policy.1 (fun _ => Except.ok "r")
    (fun n => if n < 3 then Except.ok "r" else Except.error "late") "p" "h"
    (fun n hn => by simp [hn])

/-- Counterexample for C2: a file unreadable at analysis time (`fs` returns
`none`) with a backend that succeeds immediately yields a Success-status
record with no retry sleeps and an empty `fileHash` — the read failure is
not retried and not surfaced as an Error record, contradicting the claim. -/
theorem c2_counterexample :
    (analyze_single_file (fun _ _ _ => Except.ok "resp") (fun _ => none)
        (fun _ => "H") "u.py").1 =
      ⟨"u.py", "resp", "", "success"⟩ ∧
    (analyze_single_file (fun _ _ _ => Except.ok "resp") (fun _ => none)
        (fun _ => "H") "u.py").2 = [] :=
  ⟨rfl, rfl⟩

/-- C2 amended: a read failure is swallowed, not retried: `read_file` and
`get_file_hash` catch the exception and return empty strings, so the runner
analyzes the file as if its content were empty and its hash were empty, and
the record's outcome depends only on the backend call. -/
theorem c2_read_failure_swallowed (api : String → String → Nat → Except String String)
    (fs : String → Option String) (md5 : String → String) (p : String)
    (h : fs p = none) :
    analyze_single_file api fs md5 p = analyzeGo (api p (userMessage p "")) p "" 3 0 := by
  simp [analyze_single_file, read_file, get_file_hash, h]

/-- Witness for C2's amended theorem at a concrete unreadable file. -/
theorem c2_read_failure_swallowed_witness :
    analyze_single_file (fun _ _ _ => Except.ok "resp") (fun _ => none)
        (fun _ => "H") "u.py" =
      analyzeGo ((fun _ _ _ => Except.ok "resp" :
          String → String → Nat → Except String String) "u.py"
        (userMessage "u.py" "")) "u.py" "" 3 0 :=
  c2_read_failure_swallowed (fun _ _ _ => Except.ok "resp") (fun _ => none)
    (fun _ => "H") "u.py" rfl

/-- Counterexample for C7: a Success record with empty content contributes
nothing to the aggregation input, so the input is not the concatenation
over every Success record (`aggregationInputAllSuccess` follows the claim's
words and differs). -/
theorem c7_counterexample :
    aggregationInput [⟨"a.py", "", "h", "success"⟩] = "" ∧
    aggregationInputAllSuccess [⟨"a.py", "", "h", "success"⟩] =
      "## 文件: a.py\n\n\n\n" ∧
    aggregationInput [⟨"a.py", "", "h", "success"⟩] ≠
      aggregationInputAllSuccess [⟨"a.py", "", "h", "success"⟩] := by
  refine ⟨rfl, by decide, by decide⟩

/-- C7 amended: the aggregation input is the `"\n"`-join of the chunks of
exactly those records with Success status and non-empty content (Error
records and empty-content Success records are excluded); and Error records
do not prevent aggregation from running: with only Error records the
backend is still invoked on the empty document and its answer is
returned. -/
theorem c7_aggregation_input :
    (∀ results : List FileRecord,
        aggregationInput results =
          String.intercalate "\n"
            ((results.filter (fun r =>
              decide (r.status = "success") && decide (r.content ≠ ""))).map fileChunk)) ∧
    (∀ (api : String → Nat → Except String String) (results : List FileRecord) (r0 : String),
        (∀ r ∈ results, r.status = "error") →
        api (summaryUserMessage "") 0 = Except.ok r0 →
        generate_summary api results = (r0, [])) := by
  constructor
  · intro results
    rw [aggregationInput, collectFilesContent_eq]
  · intro api results r0 hall hok
    have hcc : collectFilesContent results = [] := by
      rw [collectFilesContent_eq]
      have : results.filter (fun r =>
          decide (r.status = "success") && decide (r.content ≠ "")) = [] := by
        rw [List.filter_eq_nil_iff]
        intro r hr
        simp only [Bool.and_eq_true, decide_eq_true_eq, not_and]
        intro hs
        rw [hall r hr] at hs
        simp at hs
      rw [this, List.map_nil]
    rw [generate_summary, aggregationInput, hcc]
    exact summaryGo_ok0 _ r0 hok

/-- Witness for C7's amended theorem: an Error-only record list still
aggregates, returning the backend's answer. -/
theorem c7_aggregation_input_witness :
    generate_summary (fun _ _ => Except.ok "S") [⟨"e.py", "boom", "h", "error"⟩] =
      ("S", []) :=
  c7_aggregation_input.2 (fun _ _ => Except.ok "S") [⟨"e.py", "boom", "h", "error"⟩]
    "S" (by decide) rfl

/-- C10: with incremental mode requested but no output file configured, the
previous snapshot is never loaded, Reuse and Remove are empty, no artifact
is pruned, and every discovered file is scheduled — the run degrades to a
full analysis. -/
theorem c10_no_output_degrades_to_full (inp : RunInput)
    (_hinc : inp.incremental = true) (hout : inp.hasOutput = false) :
    (analyze_project inp).loadedPrevious = none ∧
    (analyze_project inp).removedFiles = [] ∧
    (analyze_project inp).deletedArtifacts = [] ∧
    (analyze_project inp).existingResults = [] ∧
    (analyze_project inp).filesToAnalyze = inp.discovered ∧
    (analyze_project inp).mergedResults = (analyze_project inp).newResults := by
  have hprev : previousAnalysisOf inp = none := by
    simp [previousAnalysisOf, hout]
  have hres : previousResultsOf inp = [] := by
    simp [previousResultsOf, hprev]
  have hhash : prevHashesOf inp = [] := by
    simp [prevHashesOf, hres, previousHashPairs]
  have hrem : removedFilesOfRun inp = [] := by
    simp [removedFilesOfRun, hres, removedFilesOf]
  have hbranch : incBranchOf inp = false := by
    simp [incBranchOf, hhash]
  have hfta : filesToAnalyzeOf inp = inp.discovered := by
    simp [filesToAnalyzeOf, hbranch]
  have hex : existingResultsOf inp = [] := by
    simp [existingResultsOf, hbranch]
  have hfe : filteredExistingOf inp = [] := by
    simp [filteredExistingOf, hex]
  refine ⟨hprev, hrem, ?_, hex, hfta, ?_⟩
  · show deletedArtifactsOf inp = []
    simp [deletedArtifactsOf, hrem]
  · show mergedResultsOf inp = newResultsOf inp
    rw [mergedResultsOf, hfe, List.nil_append]

/-- Witness for C10 at a concrete incremental run without an output file. -/
theorem c10_no_output_degrades_to_full_witness :
    (analyze_project noOutputInput).loadedPrevious = none ∧
    (analyze_project noOutputInput).removedFiles = [] ∧
    (analyze_project noOutputInput).deletedArtifacts = [] ∧
    (analyze_project noOutputInput).existingResults = [] ∧
    (analyze_project noOutputInput).filesToAnalyze = noOutputInput.discovered ∧
    (analyze_project noOutputInput).mergedResults = (analyze_project noOutputInput).newResults :=
  c10_no_output_degrades_to_full noOutputInput rfl rfl

/-- C3: when both the current run and the loaded previous snapshot carry a
(truthy) configuration fingerprint and the two differ, the run reports a
config change, Reuse is empty, every discovered file is scheduled, and the
merged record set is exactly the scheduler's output. -/
theorem c3_config_change_forces_full (inp : RunInput) (prev : PrevSnapshot)
    (pc c : String)
    (hinc : inp.incremental = true) (hout : inp.hasOutput = true)
    (hdisk : inp.disk = some prev) (hpc : prev.configHash = some pc)
    (hc : inp.configHash = some c) (hpc0 : pc ≠ "") (hc0 : c ≠ "") (hne : c ≠ pc) :
    (analyze_project inp).configChanged = true ∧
    (analyze_project inp).existingResults = [] ∧
    (analyze_project inp).filesToAnalyze = inp.discovered ∧
    (analyze_project inp).mergedResults = (analyze_project inp).newResults := by
  have hprev : previousAnalysisOf inp = some prev := by
    simp [previousAnalysisOf, hinc, hout, hdisk]
  have hpch : previousConfigHashOf inp = some pc := by
    simp [previousConfigHashOf, hprev, hpc]
  have hcfg : configChangedOf inp = true := by
    simp [configChangedOf, hpch, hc, optTruthy, hpc0, hc0, hne]
  have hia : incrementalAfterConfigOf inp = false := by
    simp [incrementalAfterConfigOf, hcfg]
  have hbranch : incBranchOf inp = false := by
    simp [incBranchOf, hia]
  have hex : existingResultsOf inp = [] := by
    simp [existingResultsOf, hbranch]
  have hfe : filteredExistingOf inp = [] := by
    simp [filteredExistingOf, hia]
  refine ⟨hcfg, hex, ?_, ?_⟩
  · show filesToAnalyzeOf inp = inp.discovered
    simp [filesToAnalyzeOf, hbranch]
  · show mergedResultsOf inp = newResultsOf inp
    rw [mergedResultsOf, hfe, List.nil_append]

/-- Witness for C3 at a concrete run whose config hash changed from
`cfg1` to `cfg2` while both files' contents are unchanged. -/
theorem c3_config_change_forces_full_witness :
    (analyze_project configChangeInput).configChanged = true ∧
    (analyze_project configChangeInput).existingResults = [] ∧
    (analyze_project configChangeInput).filesToAnalyze = configChangeInput.discovered ∧
    (analyze_project configChangeInput).mergedResults =
      (analyze_project configChangeInput).newResults :=
  c3_config_change_forces_full configChangeInput
    { singleFileResults :=
        [⟨"a.py", "old analysis", "md5-alpha", "success"⟩,
         ⟨"gone.py", "old gone", "H1", "success"⟩]
      configHash := some "cfg1" }
    "cfg1" "cfg2" rfl rfl rfl rfl rfl (by decide) (by decide) (by decide)

/-- C6: when the aggregation backend fails on all 3 attempts, the run's
summary is the terminal error string (mentioning 3 retries) rather than an
exception, and the snapshot save step is still reached with the merged
per-file records. -/
theorem c6_aggregation_failure_nonfatal (inp : RunInput) (e : Nat → String)
    (hfail : ∀ msg n, inp.apiSummary msg n = Except.error (e n))
    (hout : inp.hasOutput = true) :
    (analyze_project inp).summary =
      "生成总结失败: " ++ e 2 ++ " (已重试" ++ toString 3 ++ "次)" ∧
    (analyze_project inp).saved =
      some ((analyze_project inp).mergedResults, (analyze_project inp).summary) := by
  have hsum : summaryOf inp =
      "生成总结失败: " ++ e 2 ++ " (已重试" ++ toString 3 ++ "次)" := by
    rw [summaryOf, generate_summary]
    rw [summaryGo_allFail _ e (fun n => hfail _ n)]
  refine ⟨hsum, ?_⟩
  show (if inp.hasOutput then some (mergedResultsOf inp, summaryOf inp) else none) =
    some (mergedResultsOf inp, summaryOf inp)
  simp [hout]

/-- Witness for C6 at a concrete run whose aggregation backend always
fails. -/
theorem c6_aggregation_failure_nonfatal_witness :
    (analyze_project aggFailInput).summary =
      "生成总结失败: " ++ ("aggboom" ++ toString 2) ++ " (已重试" ++ toString 3 ++ "次)" ∧
    (analyze_project aggFailInput).saved =
      some ((analyze_project aggFailInput).mergedResults, (analyze_project aggFailInput).summary) :=
  c6_aggregation_failure_nonfatal aggFailInput (fun n => "aggboom" ++ toString n)
    (fun _ _ => rfl) rfl

/-- Counterexample for C1: in a caller-requested full run
(`incremental = false`) with a previous snapshot on disk containing the
stale path `gone.py`, the spec-level Remove set is `["gone.py"]` but the
code computes no removed files and deletes no artifacts — full mode skips
pruning because the previous snapshot is never loaded. -/
theorem c1_counterexample :
    removeSetSpec fullRunInput.disk fullRunInput.discovered = ["gone.py"] ∧
    (analyze_project fullRunInput).removedFiles = [] ∧
    (analyze_project fullRunInput).deletedArtifacts = [] :=
  ⟨by decide, rfl, rfl⟩

/-- C1 amended: when the caller requests a full run, the previous snapshot
is not loaded at all, so Remove is empty and no artifact is pruned;
stale paths are still absent from the new snapshot because every merged
record's filename comes from the discovered set. -/
theorem c1_full_run_skips_pruning (inp : RunInput)
    (hinc : inp.incremental = false)
    (hre : ∀ l : List String, (inp.reorder l).Perm l) :
    (analyze_project inp).loadedPrevious = none ∧
    (analyze_project inp).removedFiles = [] ∧
    (analyze_project inp).deletedArtifacts = [] ∧
    ∀ r ∈ (analyze_project inp).mergedResults, r.filename ∈ inp.discovered := by
  have hprev : previousAnalysisOf inp = none := by
    simp [previousAnalysisOf, hinc]
  have hres : previousResultsOf inp = [] := by
    simp [previousResultsOf, hprev]
  have hrem : removedFilesOfRun inp = [] := by
    simp [removedFilesOfRun, hres, removedFilesOf]
  have hbranch : incBranchOf inp = false := by
    simp [incBranchOf, incrementalAfterConfigOf, hinc]
  have hfta : filesToAnalyzeOf inp = inp.discovered := by
    simp [filesToAnalyzeOf, hbranch]
  have hfe : filteredExistingOf inp = [] := by
    simp [filteredExistingOf, incrementalAfterConfigOf, hinc]
  refine ⟨hprev, hrem, ?_, ?_⟩
  · show deletedArtifactsOf inp = []
    simp [deletedArtifactsOf, hrem]
  · intro r hr
    have hr' : r ∈ newResultsOf inp := by
      have hm : (analyze_project inp).mergedResults = mergedResultsOf inp := rfl
      rw [hm, mergedResultsOf, hfe, List.nil_append] at hr
      exact hr
    have h1 : r.filename ∈ inp.reorder (filesToAnalyzeOf inp) :=
      mem_runAll_filename hr'
    have h2 : r.filename ∈ filesToAnalyzeOf inp :=
      ((hre (filesToAnalyzeOf inp)).mem_iff).mp h1
    rw [hfta] at h2
    exact h2

/-- Witness for C1's amended theorem at the concrete full run. -/
theorem c1_full_run_skips_pruning_witness :
    (analyze_project fullRunInput).loadedPrevious = none ∧
    (analyze_project fullRunInput).removedFiles = [] ∧
    (analyze_project fullRunInput).deletedArtifacts = [] ∧
    ∀ r ∈ (analyze_project fullRunInput).mergedResults,
      r.filename ∈ fullRunInput.discovered :=
  c1_full_run_skips_pruning fullRunInput rfl (fun l => List.Perm.refl l)

/-- C5: for any completion order that is a permutation of the scheduled
tasks (this is all a concurrency level ≥ 1 can change in the model), the
scheduler produces exactly one record per input task — the result length
equals the task count and the result filenames are a permutation of the
tasks — and a task whose runner invocation raises outside the runner's
capture contract still yields an Error-status record for that path. -/
theorem c5_one_record_per_task (api : String → String → Nat → Except String String)
    (fs : String → Option String) (md5 : String → String)
    (crash : String → Option String) (tasks order : List String)
    (hperm : order.Perm tasks) :
    (runAll api fs md5 crash order).length = tasks.length ∧
    ((runAll api fs md5 crash order).map (fun r => r.filename)).Perm tasks ∧
    (∀ p e, crash p = some e →
      scheduledResult api fs md5 crash p =
        ⟨p, "处理失败: " ++ e, get_file_hash fs md5 p, "error"⟩) := by
  refine ⟨?_, ?_, ?_⟩
  · rw [runAll, List.length_map]
    exact hperm.length_eq
  · rw [runAll_map_filename]
    exact hperm
  · intro p e h
    simp [scheduledResult, h]

/-- Witness for C5: two tasks completing in reversed order, with `b.py`'s
runner invocation crashing outside the capture contract. -/
theorem c5_one_record_per_task_witness :
    (runAll (fun _ _ _ => Except.ok "ok") fsA md5A
        (fun p => if p = "b.py" then some "boom" else none)
        ["b.py", "a.py"]).length = (["a.py", "b.py"] : List String).length ∧
    ((runAll (fun _ _ _ => Except.ok "ok") fsA md5A
        (fun p => if p = "b.py" then some "boom" else none)
        ["b.py", "a.py"]).map (fun r => r.filename)).Perm ["a.py", "b.py"] ∧
    (∀ p e,
      (fun p => if p = "b.py" then some "boom" else none : String → Option String) p = some e →
      scheduledResult (fun _ _ _ => Except.ok "ok") fsA md5A
          (fun p => if p = "b.py" then some "boom" else none) p =
        ⟨p, "处理失败: " ++ e,
          get_file_hash fsA md5A p, "error"⟩) :=
  c5_one_record_per_task (fun _ _ _ => Except.ok "ok") fsA md5A
    (fun p => if p = "b.py" then some "boom" else none)
    ["a.py", "b.py"] ["b.py", "a.py"] (by decide)

/-- Counterexample for C9: running the save ops over a state whose snapshot
file holds the old snapshot, the observable trace of the snapshot file's
content is `OLDSNAP, "", NEWSNAP, …` — the truncated intermediate state
`""` is neither the complete previous snapshot nor the complete new one, so
a reader (or a process termination between the truncating `open` and the
`write`) observes a partially written snapshot. -/
theorem c9_counterexample :
    (runOps c9Init c9Ops).map (fun st => st ".codeaskdata") =
      ["OLDSNAP", "", "NEWSNAP", "NEWSNAP", "NEWSNAP", "NEWSNAP", "NEWSNAP"] ∧
    "" ∈ (runOps c9Init c9Ops).map (fun st => st ".codeaskdata") ∧
    ("" : String) ≠ "OLDSNAP" ∧ ("" : String) ≠ "NEWSNAP" := by
  have h : (runOps c9Init c9Ops).map (fun st => st ".codeaskdata") =
      ["OLDSNAP", "", "NEWSNAP", "NEWSNAP", "NEWSNAP", "NEWSNAP", "NEWSNAP"] := by
    decide
  exact ⟨h, by rw [h]; decide, by decide, by decide⟩

/-- C9 amended: persistence is not atomic — `save_analysis_results` opens
the snapshot file with mode `w` (truncating it in place) before writing the
JSON, so whenever the previous content and the new JSON are both non-empty,
the op trace contains an observable state whose snapshot content differs
from both. -/
theorem c9_save_not_atomic (st0 : String → String) (outputPath summaryPath : String)
    (artifactPath : String → String) (json summaryText : String)
    (rs : List FileRecord)
    (hold : st0 outputPath ≠ "") (hjson : json ≠ "") :
    ∃ st ∈ runOps st0
        (save_analysis_results_ops outputPath summaryPath artifactPath json summaryText rs),
      st outputPath ≠ st0 outputPath ∧ st outputPath ≠ json := by
  refine ⟨applyOp st0 (FsOp.openTrunc outputPath), ?_, ?_, ?_⟩
  · simp only [save_analysis_results_ops, List.cons_append, List.nil_append, runOps]
    exact List.mem_cons_of_mem _ (List.mem_cons_self _ _)
  · show (if outputPath = outputPath then "" else st0 outputPath) ≠ st0 outputPath
    simp only [if_pos rfl]
    exact fun hcontra => hold hcontra.symm
  · show (if outputPath = outputPath then "" else st0 outputPath) ≠ json
    simp only [if_pos rfl]
    exact fun hcontra => hjson hcontra.symm

/-- Witness for C9's amended theorem at the concrete save trace. -/
theorem c9_save_not_atomic_witness :
    ∃ st ∈ runOps c9Init c9Ops,
      st ".codeaskdata" ≠ c9Init ".codeaskdata" ∧ st ".codeaskdata" ≠ "NEWSNAP" :=
  c9_save_not_atomic c9Init ".codeaskdata" "SUMMARY.md" (fun f => f ++ ".md")
    "NEWSNAP" "the summary" [⟨"a.py", "fresh analysis", "md5-alpha", "success"⟩]
    (by decide) (by decide)

/-- C8: the merged record set written into the new snapshot contains each
path at most once — the retained Reuse records and the scheduler's output
are disjoint by construction — and removed paths appear in neither.
Hypotheses: the discovered path list has no duplicates (guaranteed by
`find_matching_files`, which deduplicates via `list(set(...))`) and the
completion order is a permutation of the scheduled tasks. -/
theorem c8_snapshot_paths_unique (inp : RunInput)
    (hnd : inp.discovered.Nodup)
    (hre : ∀ l : List String, (inp.reorder l).Perm l) :
    (((analyze_project inp).mergedResults).map (fun r => r.filename)).Nodup ∧
    ∀ p ∈ (analyze_project inp).removedFiles,
      p ∉ ((analyze_project inp).mergedResults).map (fun r => r.filename) := by
  have hm : (analyze_project inp).mergedResults = mergedResultsOf inp := rfl
  have hrm : (analyze_project inp).removedFiles = removedFilesOfRun inp := rfl
  rw [hm, hrm]
  have hmap : (mergedResultsOf inp).map (fun r => r.filename) =
      (filteredExistingOf inp).map (fun r => r.filename) ++
      (newResultsOf inp).map (fun r => r.filename) := by
    rw [mergedResultsOf, List.map_append]
  have hnew : (newResultsOf inp).map (fun r => r.filename) =
      inp.reorder (filesToAnalyzeOf inp) := by
    rw [newResultsOf, runAll_map_filename]
  have hpermNew : (inp.reorder (filesToAnalyzeOf inp)).Perm (filesToAnalyzeOf inp) :=
    hre _
  have hndFta : (filesToAnalyzeOf inp).Nodup :=
    List.Nodup.sublist (filesToAnalyzeOf_sublist inp) hnd
  have hndNew : ((newResultsOf inp).map (fun r => r.filename)).Nodup := by
    rw [hnew]
    exact hpermNew.symm.nodup hndFta
  have hfeSub : List.Sublist ((filteredExistingOf inp).map (fun r => r.filename))
      ((existingResultsOf inp).map (fun r => r.filename)) := by
    rw [filteredExistingOf]
    split
    · exact (List.filter_sublist _).map _
    · simp
  cases hb : incBranchOf inp with
  | false =>
    have hex : existingResultsOf inp = [] := by simp [existingResultsOf, hb]
    have hfe : (filteredExistingOf inp).map (fun r => r.filename) = [] := by
      have h' := hfeSub
      rw [hex] at h'
      simp only [List.map_nil] at h'
      exact List.sublist_nil.mp h'
    constructor
    · rw [hmap, hfe, List.nil_append]
      exact hndNew
    · intro p hp
      have hpn : p ∉ inp.discovered := mem_removedFilesOf hp
      rw [hmap, hfe, List.nil_append, hnew]
      intro hmem
      have h1 : p ∈ filesToAnalyzeOf inp := (hpermNew.mem_iff).mp hmem
      exact hpn ((filesToAnalyzeOf_sublist inp).subset h1)
  | true =>
    have hex : existingResultsOf inp =
        diffReuse (prevHashesOf inp) inp.fs inp.md5 (previousResultsOf inp) inp.discovered := by
      simp [existingResultsOf, hb]
    have hfta : filesToAnalyzeOf inp =
        diffSchedule (prevHashesOf inp) inp.fs inp.md5 inp.discovered := by
      simp [filesToAnalyzeOf, hb]
    have hexSub : List.Sublist ((existingResultsOf inp).map (fun r => r.filename))
        (inp.discovered.filter (reuseCond (prevHashesOf inp) inp.fs inp.md5)) := by
      rw [hex]
      exact diffReuse_names_sublist _ _ _ _ _
    have hfeSub2 : List.Sublist ((filteredExistingOf inp).map (fun r => r.filename))
        (inp.discovered.filter (reuseCond (prevHashesOf inp) inp.fs inp.md5)) :=
      hfeSub.trans hexSub
    have hndFE : ((filteredExistingOf inp).map (fun r => r.filename)).Nodup :=
      List.Nodup.sublist hfeSub2 (hnd.filter _)
    have hdisj : ∀ p, p ∈ (filteredExistingOf inp).map (fun r => r.filename) →
        p ∈ (newResultsOf inp).map (fun r => r.filename) → False := by
      intro p h1 h2
      have hr1 : reuseCond (prevHashesOf inp) inp.fs inp.md5 p = true :=
        (List.mem_filter.mp (hfeSub2.subset h1)).2
      rw [hnew] at h2
      have h3 : p ∈ filesToAnalyzeOf inp := hpermNew.mem_iff.mp h2
      rw [hfta] at h3
      have hr2 := (List.mem_filter.mp h3).2
      simp [hr1] at hr2
    constructor
    · rw [hmap, List.nodup_append]
      exact ⟨hndFE, hndNew, fun a ha hb' => hdisj a ha hb'⟩
    · intro p hp
      have hpn : p ∉ inp.discovered := mem_removedFilesOf hp
      rw [hmap]
      intro hmem
      rcases List.mem_append.mp hmem with h1 | h2
      · exact hpn ((List.filter_sublist _).subset (hfeSub2.subset h1))
      · rw [hnew] at h2
        exact hpn ((filesToAnalyzeOf_sublist inp).subset (hpermNew.mem_iff.mp h2))

/-- Witness for C8 at the concrete baseline incremental run. -/
theorem c8_snapshot_paths_unique_witness :
    (((analyze_project baseInput).mergedResults).map (fun r => r.filename)).Nodup ∧
    ∀ p ∈ (analyze_project baseInput).removedFiles,
      p ∉ ((analyze_project baseInput).mergedResults).map (fun r => r.filename) :=
  c8_snapshot_paths_unique baseInput (by decide) (fun l => List.Perm.refl l)

end CodeAskCLI
